import Mathlib

/-!
Verification of the background command execution subsystem of the
`gui-4-hemtt` repository (`src/command_runner.py`, `src/config_store.py`).

The Python source is shallowly embedded: pure functions become Lean
functions on lists of characters / strings; the stateful `CommandRunner`
becomes explicit state passing over a `RunnerState` record plus a trace
semantics for the worker routine `_run`; fallible operations of the
outside world (process spawn, stream reads, `wait()`, file reads and
writes) are passed in as explicit outcome values, and the callbacks
`on_output` / `on_exit` are recorded as events in a trace.
-/

/-! ## ANSI sanitizer (`strip_ansi_codes`, src/command_runner.py lines 10-24)

The Python function substitutes every non-overlapping, leftmost-first
match of the source's regex (escape byte, then either one byte of the
`[@-Z\\-_]` class or a full CSI sequence) with the empty string.  The
character class `[@-Z\\-_]` is the byte range
0x40-0x5A together with 0x5C-0x5F; the second alternative is a CSI
sequence: `[` then parameter bytes 0x30-0x3F, then intermediate bytes
0x20-0x2F, then one final byte 0x40-0x7E.  Because the three CSI
character classes are pairwise disjoint and disjoint from nothing the
regex engine could backtrack into, greedy matching coincides with
maximal munch, which is what `escMatch` implements. -/

def escChar : Char := Char.ofNat 27

def isFe (c : Char) : Bool :=
  (0x40 ≤ c.toNat && c.toNat ≤ 0x5A) || (0x5C ≤ c.toNat && c.toNat ≤ 0x5F)

def isParamByte (c : Char) : Bool := 0x30 ≤ c.toNat && c.toNat ≤ 0x3F

def isInterByte (c : Char) : Bool := 0x20 ≤ c.toNat && c.toNat ≤ 0x2F

def isFinalByte (c : Char) : Bool := 0x40 ≤ c.toNat && c.toNat ≤ 0x7E

/-- Given the characters following an escape byte, try to match the rest
of one escape sequence handled by the regex; on success return the
characters after the matched sequence. -/
def escMatch : List Char → Option (List Char)
  | [] => none
  | c :: rest =>
    if isFe c then some rest
    else if c.toNat = 0x5B then
      match (rest.dropWhile isParamByte).dropWhile isInterByte with
      | [] => none
      | f :: r => if isFinalByte f then some r else none
    else none

/-- One left-to-right pass of `re.sub`: at each escape byte that begins a
handled sequence, drop the whole sequence and continue scanning after
it; every other character is kept.  The fuel argument only serves
structural termination; `l.length` fuel is always sufficient because a
match consumes at least the escape byte. -/
def stripAnsiFuel : Nat → List Char → List Char
  | 0, l => l
  | _ + 1, [] => []
  | fuel + 1, c :: rest =>
    if c = escChar then
      match escMatch rest with
      | some rest' => stripAnsiFuel fuel rest'
      | none => c :: stripAnsiFuel fuel rest
    else c :: stripAnsiFuel fuel rest

def stripAnsiList (l : List Char) : List Char := stripAnsiFuel l.length l

/-- `strip_ansi_codes` from src/command_runner.py. -/
def strip_ansi_codes (s : String) : String := String.mk (stripAnsiList s.data)

/-- `l` contains (somewhere) a complete escape sequence of the handled
family: an escape byte whose following characters begin a match. -/
def hasAnsiSeq : List Char → Bool
  | [] => false
  | c :: rest => ((c == escChar) && (escMatch rest).isSome) || hasAnsiSeq rest

/-- Every escape byte occurring in `l` begins a handled sequence. -/
def allEscOk : List Char → Bool
  | [] => true
  | c :: rest => (!(c == escChar) || (escMatch rest).isSome) && allEscOk rest

/-- `l` contains no escape byte at all. -/
def noEsc (l : List Char) : Bool := l.all (fun c => !(c == escChar))

/-! ## Command builder (`build_command`, src/command_runner.py lines 27-44) -/

def build_command (hemtt_executable : String) (args : List String) : List String :=
  let cmd := [hemtt_executable]
  cmd ++ args

/-! ## Python dict operations

Association lists over string keys model Python dictionaries.
`setItem` is `d[k] = v` (replace in place if the key exists, else append,
preserving insertion order); `getItem` is `d[k]` / `d.get(k)`;
`dictUpdate` is `d.update(upd)`. -/

def setItem {α : Type} : List (String × α) → String → α → List (String × α)
  | [], k, v => [(k, v)]
  | p :: rest, k, v => if p.1 = k then (k, v) :: rest else p :: setItem rest k v

def getItem {α : Type} : List (String × α) → String → Option α
  | [], _ => none
  | p :: rest, k => if p.1 = k then some p.2 else getItem rest k

def dictUpdate {α : Type} (d : List (String × α)) (upd : List (String × α)) :
    List (String × α) :=
  upd.foldl (fun acc p => setItem acc p.1 p.2) d

/-! ## Child environment construction (src/command_runner.py lines 106-111)

`run_env = self.env.copy() if self.env else os.environ.copy()` — note the
Python truthiness test: an empty override dict is falsy, so it falls
back to `os.environ`.  Then `run_env["NO_COLOR"] = "1"` and
`run_env["TERM"] = "dumb"` are forced. -/

def runEnvBase (envOverride : Option (List (String × String)))
    (osEnviron : List (String × String)) : List (String × String) :=
  match envOverride with
  | some e => if e.isEmpty then osEnviron else e
  | none => osEnviron

def makeRunEnv (envOverride : Option (List (String × String)))
    (osEnviron : List (String × String)) : List (String × String) :=
  setItem (setItem (runEnvBase envOverride osEnviron) "NO_COLOR" "1") "TERM" "dumb"

/-! ## CommandRunner worker semantics (`_run`, src/command_runner.py lines 102-143)

The worker's interaction with the outside world is passed in explicitly:

* `SpawnResult` — outcome of `subprocess.Popen`: raise `FileNotFoundError`,
  raise some other exception, or return a child process handle.
* `ChildProc.stream` — the merged stdout/stderr stream as the worker
  reads it line by line; a `readErr` item is an exception raised by the
  read (caught by the generic `except Exception` handler).
* `ChildProc.waitResult` — outcome of `self.process.wait()`.
* `cancelAt i` — whether `self._cancel_requested` is observed as set at
  the check following delivery of the i-th line.

`runEvents` is the trace of callback invocations the worker performs:
`Event.out s` is a call of `on_output s`, `Event.exit c` a call of
`on_exit c`. -/

inductive StreamItem
  | line (s : String)
  | readErr (msg : String)

structure ChildProc where
  stream : List StreamItem
  waitResult : Except String Int

inductive SpawnResult
  | fileNotFound (msg : String)
  | otherErr (msg : String)
  | ok (proc : ChildProc)

inductive Event
  | out (s : String)
  | exit (code : Int)
  deriving DecidableEq

/-- Events emitted after the drain loop stops: `returncode = self.process.wait()`
then `self.on_exit(returncode)`; a raising `wait()` falls into the
generic handler (`Unexpected error` line, exit code 1). -/
def finishEvents : Except String Int → List Event
  | Except.ok code => [Event.exit code]
  | Except.error m => [Event.out ("Unexpected error: " ++ m ++ "\n"), Event.exit 1]

/-- The drain loop (lines 127-135): each line is sanitized and delivered
to `on_output`; after each delivery the cancellation flag is checked and
the loop breaks if it is set; a raising read falls into the generic
handler. -/
def drainEvents : List StreamItem → (Nat → Bool) → Nat → Except String Int → List Event
  | [], _, _, w => finishEvents w
  | StreamItem.line s :: rest, cancelAt, i, w =>
    Event.out (strip_ansi_codes s) ::
      (if cancelAt i then finishEvents w else drainEvents rest cancelAt (i + 1) w)
  | StreamItem.readErr m :: _, _, _, _ =>
    [Event.out ("Unexpected error: " ++ m ++ "\n"), Event.exit 1]

/-- Full callback trace of one `_run` invocation (lines 102-143). -/
def runEvents : SpawnResult → (Nat → Bool) → List Event
  | SpawnResult.fileNotFound m, _ =>
    [Event.out ("Error: " ++ m ++ "\n"), Event.exit 127]
  | SpawnResult.otherErr m, _ =>
    [Event.out ("Unexpected error: " ++ m ++ "\n"), Event.exit 1]
  | SpawnResult.ok proc, cancelAt => drainEvents proc.stream cancelAt 0 proc.waitResult

/-- Output lines a trace delivers to `on_output`, in order. -/
def outputsOf (t : List Event) : List String :=
  t.filterMap fun e => match e with
    | Event.out s => some s
    | Event.exit _ => none

/-- Number of `on_exit` invocations in a trace. -/
def exitCount (t : List Event) : Nat :=
  (t.filter fun e => match e with
    | Event.exit _ => true
    | _ => false).length

/-! ## CommandRunner control state (src/command_runner.py lines 47-100)

`RunnerState` holds the mutable fields of a `CommandRunner` that `start`
and `cancel` read and write: whether `self.process` has been assigned,
`self.is_running`, `self._cancel_requested`, plus a counter of worker
spawns (`threading.Thread(...).start()` at lines 87-88; each worker
performs exactly one `subprocess.Popen` attempt).

Crucially, `start()` itself only checks `is_running` and launches the
worker; `is_running` is set to `True` by the worker itself (line 104)
and back to `False` in its `finally` block (line 143).  `workerBegin`
and `workerFinish` model those two assignments (together with the
assignment of `self.process` at line 114). -/

structure RunnerState where
  hasProcess : Bool
  is_running : Bool
  cancel_requested : Bool
  spawnCount : Nat
  deriving DecidableEq

/-- Field state right after `__init__` (lines 77-80). -/
def CommandRunner.init : RunnerState :=
  { hasProcess := false, is_running := false, cancel_requested := false, spawnCount := 0 }

/-- `start()` (lines 82-88): return immediately if `is_running`,
otherwise clear the cancellation flag and launch one worker. -/
def start (s : RunnerState) : RunnerState :=
  if s.is_running then s
  else { s with cancel_requested := false, spawnCount := s.spawnCount + 1 }

/-- The worker's entry (lines 104 and 114). -/
def workerBegin (s : RunnerState) : RunnerState :=
  { s with is_running := true, hasProcess := true }

/-- The worker's `finally` block (line 143). -/
def workerFinish (s : RunnerState) : RunnerState :=
  { s with is_running := false }

/-- Outside-world outcomes `cancel()` can run into: whether
`self.process.terminate()` raises, and whether `self.process.kill()`
raises. -/
structure CancelWorld where
  terminateFails : Bool
  killFails : Bool

inductive CancelAction
  | terminateProc
  | killProc
  deriving DecidableEq

/-- `cancel()` (lines 90-100): set the flag; only when `self.process`
is assigned and `is_running` is true, attempt `terminate()`; if that
raises, attempt `kill()`; if that raises too, swallow it.  The result
records the successor state, the attempted actions, and the callback
events cancel itself emits (there is no callback call in its body, so
that component is always empty).  `cancel` is a total function: no
outcome makes it raise to its caller. -/
def cancel (s : RunnerState) (w : CancelWorld) :
    RunnerState × List CancelAction × List Event :=
  let s' := { s with cancel_requested := true }
  if s.hasProcess && s.is_running then
    if w.terminateFails then
      if w.killFails then (s', [CancelAction.terminateProc, CancelAction.killProc], [])
      else (s', [CancelAction.terminateProc, CancelAction.killProc], [])
    else (s', [CancelAction.terminateProc], [])
  else (s', [], [])

/-! ## Config store (src/config_store.py)

Python values as `json.load` can produce them (plus `None` for
completeness); dict keys are arbitrary values so that the
`isinstance(k, str)` filter of `load_config` is represented faithfully. -/

inductive PyVal
  | pyNone
  | pyBool (b : Bool)
  | pyInt (n : Int)
  | pyStr (s : String)
  | pyList (xs : List PyVal)
  | pyDict (entries : List (PyVal × PyVal))

/-- `DEFAULTS` (src/config_store.py lines 6-14); `os.getcwd()` is the
parameter `cwd`. -/
def DEFAULTS (cwd : String) : List (String × PyVal) :=
  [("hemtt_path", PyVal.pyStr "hemtt"),
   ("project_dir", PyVal.pyStr cwd),
   ("dark_mode", PyVal.pyBool false),
   ("verbose", PyVal.pyBool false),
   ("pedantic", PyVal.pyBool false)]

/-- `{k: v for k, v in data.items() if isinstance(k, str)}` (line 42). -/
def strEntries : List (PyVal × PyVal) → List (String × PyVal)
  | [] => []
  | (PyVal.pyStr k, v) :: rest => (k, v) :: strEntries rest
  | _ :: rest => strEntries rest

/-- Outcome of the file probe / open / `json.load` in `load_config`:
the file is missing (`os.path.isfile` false), reading or parsing raised,
or parsing produced a value. -/
inductive ReadOutcome
  | missing
  | raised
  | parsed (v : PyVal)

def isPyDict : PyVal → Bool
  | PyVal.pyDict _ => true
  | _ => false

/-- `load_config` (src/config_store.py lines 24-45). -/
def load_config (cwd : String) : ReadOutcome → List (String × PyVal)
  | ReadOutcome.missing => DEFAULTS cwd
  | ReadOutcome.raised => DEFAULTS cwd
  | ReadOutcome.parsed (PyVal.pyDict entries) =>
    dictUpdate (DEFAULTS cwd) (strEntries entries)
  | ReadOutcome.parsed _ => DEFAULTS cwd

/-- `save_config` (src/config_store.py lines 48-56): the whole write is
wrapped in `try ... except Exception: pass`, so every write failure is
swallowed and the function always returns normally. -/
def save_config (writeOutcome : Except String Unit) : Except String Unit :=
  match writeOutcome with
  | Except.ok _ => Except.ok ()
  | Except.error _ => Except.ok ()

/-! ## Lemmas about the sanitizer -/

theorem escMatch_suffix {l l' : List Char} (h : escMatch l = some l') : l' <:+ l := by
  cases l with
  | nil => simp [escMatch] at h
  | cons c rest =>
    simp only [escMatch] at h
    split at h
    · cases h
      exact List.suffix_cons _ _
    · split at h
      · split at h
        · cases h
        · rename_i f r hdw
          split at h
          · cases h
            have h1 : (rest.dropWhile isParamByte).dropWhile isInterByte <:+ rest :=
              (List.dropWhile_suffix _).trans (List.dropWhile_suffix _)
            rw [hdw] at h1
            exact ((List.suffix_cons _ _).trans h1).trans (List.suffix_cons _ _)
          · cases h
      · cases h

theorem escMatch_length_le {l l' : List Char} (h : escMatch l = some l') :
    l'.length ≤ l.length :=
  (escMatch_suffix h).length_le

theorem allEscOk_of_suffix {l l' : List Char} (hs : l' <:+ l) (h : allEscOk l = true) :
    allEscOk l' = true := by
  rcases hs with ⟨t, rfl⟩
  induction t with
  | nil => exact h
  | cons a t ih =>
    simp only [List.cons_append, allEscOk, Bool.and_eq_true] at h
    exact ih h.2

/-- When every escape byte of `l` begins a handled sequence, the single
substitution pass removes every escape byte. -/
theorem stripAnsiFuel_no_esc (fuel : Nat) :
    ∀ l : List Char, l.length ≤ fuel → allEscOk l = true →
      escChar ∉ stripAnsiFuel fuel l := by
  induction fuel with
  | zero =>
    intro l hlen _
    have hl : l = [] := List.eq_nil_of_length_eq_zero (Nat.le_zero.mp hlen)
    subst hl
    simp [stripAnsiFuel]
  | succ fuel ih =>
    intro l hlen hok
    cases l with
    | nil => simp [stripAnsiFuel]
    | cons c rest =>
      have hok' := hok
      simp only [allEscOk, Bool.and_eq_true] at hok'
      have hok1 := hok'.1
      have hok2 := hok'.2
      have hlen' : rest.length ≤ fuel := by
        simpa using Nat.le_of_succ_le_succ (by simpa using hlen)
      by_cases hc : c = escChar
      · subst hc
        have hsome : (escMatch rest).isSome = true := by simpa using hok1
        rcases Option.isSome_iff_exists.mp hsome with ⟨rest', hr⟩
        have hstep : stripAnsiFuel (fuel + 1) (escChar :: rest) = stripAnsiFuel fuel rest' := by
          simp [stripAnsiFuel, hr]
        rw [hstep]
        exact ih rest' (le_trans (escMatch_length_le hr) hlen')
          (allEscOk_of_suffix (escMatch_suffix hr) hok2)
      · have hstep : stripAnsiFuel (fuel + 1) (c :: rest) = c :: stripAnsiFuel fuel rest := by
          simp [stripAnsiFuel, hc]
        rw [hstep]
        intro hmem
        rcases List.mem_cons.mp hmem with h1 | h1
        · exact hc h1.symm
        · exact ih rest hlen' hok2 h1

theorem hasAnsiSeq_eq_false {l : List Char} (h : escChar ∉ l) : hasAnsiSeq l = false := by
  induction l with
  | nil => rfl
  | cons c rest ih =>
    have hc : ¬ c = escChar := fun hc => h (hc ▸ List.mem_cons_self c rest)
    have hrest : escChar ∉ rest := fun hm => h (List.mem_cons_of_mem c hm)
    have hb : (c == escChar) = false := beq_eq_false_iff_ne.mpr hc
    simp [hasAnsiSeq, hb, ih hrest]

/-- Inputs without any escape byte pass through the substitution
unchanged. -/
theorem stripAnsiFuel_noEsc (fuel : Nat) :
    ∀ l : List Char, l.length ≤ fuel → noEsc l = true → stripAnsiFuel fuel l = l := by
  induction fuel with
  | zero => intro l _ _; rfl
  | succ fuel ih =>
    intro l hlen hne
    cases l with
    | nil => rfl
    | cons c rest =>
      simp only [noEsc, List.all_cons, Bool.and_eq_true, Bool.not_eq_true',
        beq_eq_false_iff_ne] at hne
      have hlen' : rest.length ≤ fuel := by
        simpa using Nat.le_of_succ_le_succ (by simpa using hlen)
      have htail : noEsc rest = true := hne.2
      simp [stripAnsiFuel, hne.1, ih rest hlen' htail]

theorem strip_ansi_codes_of_noEsc (s : String) (h : noEsc s.data = true) :
    strip_ansi_codes s = s := by
  unfold strip_ansi_codes stripAnsiList
  rw [stripAnsiFuel_noEsc s.data.length s.data le_rfl h]

/-! ## Claims C4 and C5: the ANSI sanitizer -/

/-- C4 counterexample: the claim "for all input strings, the result of
`strip_ansi_codes` contains no escape-introduced control sequence of the
handled family" is false.  On the concrete input `"\x1B\x1B[31m[0m"` the
single substitution pass removes the inner `ESC [ 3 1 m` sequence,
which juxtaposes the leading stray escape byte with the remaining text
`"[0m"`, so the returned string `"\x1B[0m"` is itself a complete CSI
sequence. -/
theorem c4_counterexample :
    strip_ansi_codes "\x1B\x1B[31m[0m" = "\x1B[0m" ∧
    hasAnsiSeq (strip_ansi_codes "\x1B\x1B[31m[0m").data = true := by
  constructor
  · decide
  · decide

/-- C4 (amended): for every input string in which each escape byte
begins a sequence of the handled family, `strip_ansi_codes` returns a
string that contains no escape byte at all, and hence no
escape-introduced control sequence (no CSI sequence and no other
ESC-prefixed sequence of the handled family). -/
theorem c4_sanitize_amended (s : String) (h : allEscOk s.data = true) :
    hasAnsiSeq (strip_ansi_codes s).data = false :=
  hasAnsiSeq_eq_false (stripAnsiFuel_no_esc s.data.length s.data le_rfl h)

theorem c4_sanitize_amended_witness :
    hasAnsiSeq (strip_ansi_codes "\x1B[31mError\x1B[0m").data = false :=
  c4_sanitize_amended "\x1B[31mError\x1B[0m" (by decide)

/-- C5: `strip_ansi_codes` returns every escape-free string unchanged —
ordinary characters that merely resemble escape syntax (such as a
literal `"[31m"` with no preceding escape byte) are never removed — and
it returns exactly the expected results on the spec's examples. -/
theorem c5_sanitize_plain :
    (∀ s : String, noEsc s.data = true → strip_ansi_codes s = s) ∧
    strip_ansi_codes "\x1B[31mError\x1B[0m" = "Error" ∧
    strip_ansi_codes "\x1B[1;32mSuccess:\x1B[0m \x1B[33mWarning\x1B[0m" = "Success: Warning" ∧
    strip_ansi_codes "plain" = "plain" ∧
    strip_ansi_codes "" = "" ∧
    strip_ansi_codes "[31m" = "[31m" :=
  ⟨strip_ansi_codes_of_noEsc, by decide, by decide, by decide, by decide, by decide⟩

theorem c5_sanitize_plain_witness :
    strip_ansi_codes "no escapes here" = "no escapes here" :=
  c5_sanitize_plain.1 "no escapes here" (by decide)

/-! ## Lemmas about the worker trace -/

theorem finishEvents_shape (w : Except String Int) :
    ∃ (outs : List String) (code : Int),
      finishEvents w = outs.map Event.out ++ [Event.exit code] := by
  cases w with
  | ok code => exact ⟨[], code, rfl⟩
  | error m => exact ⟨["Unexpected error: " ++ m ++ "\n"], 1, rfl⟩

theorem drainEvents_shape (stream : List StreamItem) (cancelAt : Nat → Bool)
    (w : Except String Int) :
    ∀ i, ∃ (outs : List String) (code : Int),
      drainEvents stream cancelAt i w = outs.map Event.out ++ [Event.exit code] := by
  induction stream with
  | nil => intro i; exact finishEvents_shape w
  | cons item rest ih =>
    intro i
    cases item with
    | line s =>
      by_cases hc : cancelAt i
      · rcases finishEvents_shape w with ⟨outs, code, hw⟩
        exact ⟨strip_ansi_codes s :: outs, code, by simp [drainEvents, hc, hw]⟩
      · rcases ih (i + 1) with ⟨outs, code, hw⟩
        exact ⟨strip_ansi_codes s :: outs, code, by simp [drainEvents, hc, hw]⟩
    | readErr m => exact ⟨["Unexpected error: " ++ m ++ "\n"], 1, rfl⟩

theorem runEvents_shape (sr : SpawnResult) (cancelAt : Nat → Bool) :
    ∃ (outs : List String) (code : Int),
      runEvents sr cancelAt = outs.map Event.out ++ [Event.exit code] := by
  cases sr with
  | fileNotFound m => exact ⟨["Error: " ++ m ++ "\n"], 127, rfl⟩
  | otherErr m => exact ⟨["Unexpected error: " ++ m ++ "\n"], 1, rfl⟩
  | ok proc => exact drainEvents_shape proc.stream cancelAt proc.waitResult 0

theorem exitCount_shape (outs : List String) (code : Int) :
    exitCount (outs.map Event.out ++ [Event.exit code]) = 1 := by
  induction outs with
  | nil => rfl
  | cons s rest ih => exact ih

theorem outputsOf_cons_out (s : String) (t : List Event) :
    outputsOf (Event.out s :: t) = s :: outputsOf t := rfl

theorem drainEvents_ordered (lines : List String) (cancelAt : Nat → Bool) (code : Int) :
    ∀ i, outputsOf (drainEvents (lines.map StreamItem.line) cancelAt i (Except.ok code)) <+:
      lines.map strip_ansi_codes := by
  induction lines with
  | nil => intro i; exact List.nil_prefix
  | cons l rest ih =>
    intro i
    by_cases hc : cancelAt i
    · have hstep : drainEvents ((l :: rest).map StreamItem.line) cancelAt i (Except.ok code)
          = Event.out (strip_ansi_codes l) :: [Event.exit code] := by
        simp [drainEvents, hc, finishEvents]
      rw [hstep]
      exact ⟨rest.map strip_ansi_codes, rfl⟩
    · have hstep : drainEvents ((l :: rest).map StreamItem.line) cancelAt i (Except.ok code)
          = Event.out (strip_ansi_codes l) ::
              drainEvents (rest.map StreamItem.line) cancelAt (i + 1) (Except.ok code) := by
        simp [drainEvents, hc]
      rw [hstep, outputsOf_cons_out]
      rcases ih (i + 1) with ⟨t, ht⟩
      exact ⟨t, by simp [List.cons_append, ht]⟩

/-! ## Claim C1: callback protocol of one run -/

/-- C1: in every single `_run` invocation — successful spawn, failed
spawn, raising read or `wait`, with or without cancellation — the trace
of callback invocations is zero or more `on_output` calls followed by
exactly one `on_exit` call (so the exit callback fires exactly once,
strictly after every output callback of that run); and in a run whose
reads and `wait` succeed, the delivered output lines are exactly the
sanitized child lines, in the order the child produced them, up to the
point where the drain stopped (a prefix of them). -/
theorem c1_exit_once_last_ordered :
    (∀ (sr : SpawnResult) (cancelAt : Nat → Bool),
      ∃ (outs : List String) (code : Int),
        runEvents sr cancelAt = outs.map Event.out ++ [Event.exit code] ∧
        exitCount (runEvents sr cancelAt) = 1 ∧
        (runEvents sr cancelAt).getLast? = some (Event.exit code)) ∧
    (∀ (lines : List String) (cancelAt : Nat → Bool) (code : Int),
      outputsOf (runEvents
          (SpawnResult.ok ⟨lines.map StreamItem.line, Except.ok code⟩) cancelAt) <+:
        lines.map strip_ansi_codes) := by
  constructor
  · intro sr cancelAt
    rcases runEvents_shape sr cancelAt with ⟨outs, code, h⟩
    refine ⟨outs, code, h, ?_, ?_⟩
    · rw [h]; exact exitCount_shape outs code
    · rw [h]; exact List.getLast?_concat _
  · intro lines cancelAt code
    exact drainEvents_ordered lines cancelAt code 0

/-! ## Claim C3: failure taxonomy -/

/-- C3: a spawn failure (`FileNotFoundError`) produces exactly one
diagnostic output line followed by the exit callback with sentinel 127;
any other exception — raised at spawn, by a read inside the drain loop,
or by `wait()` — produces exactly one diagnostic output line followed by
the exit callback with sentinel 1.  The worker semantics is a total
function into callback traces: no failure outcome raises synchronously
to the caller, all failure information flows through the output/exit
callback channel. -/
theorem c3_failure_sentinels (m : String) (cancelAt : Nat → Bool) :
    runEvents (SpawnResult.fileNotFound m) cancelAt =
      [Event.out ("Error: " ++ m ++ "\n"), Event.exit 127] ∧
    runEvents (SpawnResult.otherErr m) cancelAt =
      [Event.out ("Unexpected error: " ++ m ++ "\n"), Event.exit 1] ∧
    (∀ (stream : List StreamItem) (i : Nat) (w : Except String Int),
      drainEvents (StreamItem.readErr m :: stream) cancelAt i w =
        [Event.out ("Unexpected error: " ++ m ++ "\n"), Event.exit 1]) ∧
    finishEvents (Except.error m) =
      [Event.out ("Unexpected error: " ++ m ++ "\n"), Event.exit 1] :=
  ⟨rfl, rfl, fun _ _ _ => rfl, rfl⟩

/-! ## Claim C2: start() idempotence -/

/-- C2 counterexample: the claim that `start()` on a Runner that has
already reached `Finished` is a no-op (and that two `start()` calls in
quick succession spawn only one child) is false.  After a completed run
(`workerBegin` then `workerFinish`, leaving `is_running` false again) a
second `start()` spawns a second worker — and therefore a second child
process; likewise, a second `start()` issued before the worker has set
`is_running` (the flag is only set inside the worker, line 104) also
spawns a second worker. -/
theorem c2_counterexample :
    (start (workerFinish (workerBegin (start CommandRunner.init)))).spawnCount = 2 ∧
    (start (start CommandRunner.init)).spawnCount = 2 :=
  ⟨rfl, rfl⟩

/-- C2 (amended): `start()` is a no-op — no state change, no worker and
no child process spawned — exactly while `is_running` is true; whenever
`is_running` is false (the initial state, but also after a finished run,
or before the launched worker has set the flag) it clears the
cancellation flag and spawns one new worker. -/
theorem c2_start_amended (s : RunnerState) :
    (s.is_running = true → start s = s) ∧
    (s.is_running = false →
      start s = { s with cancel_requested := false, spawnCount := s.spawnCount + 1 }) := by
  constructor
  · intro h; simp [start, h]
  · intro h; simp [start, h]

theorem c2_start_amended_witness :
    start { hasProcess := true, is_running := true, cancel_requested := false,
            spawnCount := 1 } =
      { hasProcess := true, is_running := true, cancel_requested := false,
        spawnCount := 1 } :=
  (c2_start_amended _).1 rfl

/-! ## Claim C6: command builder -/

/-- C6: for every executable identifier and every (possibly empty) list
of argument strings, `build_command` returns exactly the executable
consed onto the arguments, preserving order; with no arguments the
result is the single-element list.  It is a pure total Lean function,
hence deterministic and never failing. -/
theorem c6_build_command (exe : String) (args : List String) :
    build_command exe args = [exe] ++ args ∧ build_command exe [] = [exe] :=
  ⟨rfl, rfl⟩

/-! ## Lemmas about the dict operations -/

theorem getItem_setItem_same {α : Type} (d : List (String × α)) (k : String) (v : α) :
    getItem (setItem d k v) k = some v := by
  induction d with
  | nil => simp [setItem, getItem]
  | cons p rest ih =>
    by_cases hp : p.1 = k
    · simp [setItem, hp, getItem]
    · simp [setItem, hp, getItem, ih]

theorem getItem_setItem_other {α : Type} (d : List (String × α)) (k k' : String) (v : α)
    (h : k' ≠ k) : getItem (setItem d k v) k' = getItem d k' := by
  induction d with
  | nil =>
    have hk : ¬ (k = k') := fun hh => h hh.symm
    simp [setItem, getItem, hk]
  | cons p rest ih =>
    by_cases hp : p.1 = k
    · have hk : ¬ (k = k') := fun hh => h hh.symm
      have hp' : ¬ (p.1 = k') := by rw [hp]; exact hk
      simp [setItem, hp, getItem, hk, hp']
    · by_cases hq : p.1 = k'
      · simp [setItem, hp, getItem, hq, h]
      · simp [setItem, hp, getItem, hq, ih]

theorem getItem_setItem_isSome {α : Type} (d : List (String × α)) (k k' : String) (v : α)
    (h : (getItem d k').isSome = true) : (getItem (setItem d k v) k').isSome = true := by
  by_cases hk : k' = k
  · subst hk; rw [getItem_setItem_same]; rfl
  · rw [getItem_setItem_other d k k' v hk]; exact h

theorem getItem_dictUpdate_isSome {α : Type} (upd : List (String × α)) :
    ∀ (d : List (String × α)) (k : String), (getItem d k).isSome = true →
      (getItem (dictUpdate d upd) k).isSome = true := by
  induction upd with
  | nil => intro d k h; exact h
  | cons p rest ih =>
    intro d k h
    exact ih (setItem d p.1 p.2) k (getItem_setItem_isSome d p.1 k p.2 h)

theorem getItem_eq_none_of_not_mem {α : Type} (d : List (String × α)) (k : String)
    (h : k ∉ d.map Prod.fst) : getItem d k = none := by
  induction d with
  | nil => rfl
  | cons p rest ih =>
    simp only [List.map_cons, List.mem_cons, not_or] at h
    have hp : ¬ (p.1 = k) := fun hh => h.1 hh.symm
    simp [getItem, hp, ih h.2]

theorem getItem_dictUpdate_none {α : Type} (upd : List (String × α)) :
    ∀ (d : List (String × α)) (k : String), getItem upd k = none →
      getItem (dictUpdate d upd) k = getItem d k := by
  induction upd with
  | nil => intro d k _; rfl
  | cons p rest ih =>
    intro d k h
    by_cases hp : p.1 = k
    · simp [getItem, hp] at h
    · simp only [getItem, if_neg hp] at h
      rw [show dictUpdate d (p :: rest) = dictUpdate (setItem d p.1 p.2) rest from rfl]
      rw [ih (setItem d p.1 p.2) k h]
      exact getItem_setItem_other d p.1 k p.2 (fun hh => hp hh.symm)

theorem getItem_dictUpdate_some {α : Type} (upd : List (String × α)) :
    ∀ (d : List (String × α)) (k : String) (v : α),
      (upd.map Prod.fst).Nodup → getItem upd k = some v →
      getItem (dictUpdate d upd) k = some v := by
  induction upd with
  | nil => intro d k v _ h; cases h
  | cons p rest ih =>
    intro d k v hnd h
    obtain ⟨k1, v1⟩ := p
    simp only [List.map_cons, List.nodup_cons] at hnd
    by_cases hp : k1 = k
    · subst hp
      simp only [getItem, if_pos rfl] at h
      cases h
      have hrest : getItem rest k1 = none :=
        getItem_eq_none_of_not_mem rest k1 hnd.1
      rw [show dictUpdate d ((k1, v) :: rest) = dictUpdate (setItem d k1 v) rest from rfl]
      rw [getItem_dictUpdate_none rest (setItem d k1 v) k1 hrest]
      exact getItem_setItem_same d k1 v
    · simp only [getItem, if_neg hp] at h
      exact ih (setItem d k1 v1) k v hnd.2 h

/-! ## Claim C7: forced child environment -/

/-- C7 counterexample: the claim that a supplied environment override is
always used as the base of the child environment is false when the
override is the empty mapping.  `self.env.copy() if self.env else
os.environ.copy()` tests Python truthiness, and an empty dict is falsy,
so the code falls back to the process environment: with override
`some []` and a process environment containing `PATH`, the child still
sees `PATH` (the claim demands that lookups of keys other than the two
forced ones go to the override base, i.e. return nothing here). -/
theorem c7_counterexample :
    getItem (makeRunEnv (some []) [("PATH", "p")]) "PATH" = some "p" ∧
    getItem ([] : List (String × String)) "PATH" = none := by
  constructor
  · rfl
  · rfl

/-- C7 (amended): on every spawn the child environment is the base
environment — the caller-supplied override when one was supplied and it
is non-empty, otherwise the current process environment — with
`NO_COLOR` forced to `"1"` and `TERM` forced to `"dumb"`; every other
key of the base passes through unchanged. -/
theorem c7_env_amended (envOverride : Option (List (String × String)))
    (osEnviron : List (String × String)) :
    getItem (makeRunEnv envOverride osEnviron) "NO_COLOR" = some "1" ∧
    getItem (makeRunEnv envOverride osEnviron) "TERM" = some "dumb" ∧
    ∀ k, k ≠ "NO_COLOR" → k ≠ "TERM" →
      getItem (makeRunEnv envOverride osEnviron) k =
        getItem (runEnvBase envOverride osEnviron) k := by
  refine ⟨?_, ?_, ?_⟩
  · unfold makeRunEnv
    rw [getItem_setItem_other _ _ _ _ (by decide)]
    exact getItem_setItem_same _ _ _
  · unfold makeRunEnv
    exact getItem_setItem_same _ _ _
  · intro k h1 h2
    unfold makeRunEnv
    rw [getItem_setItem_other _ _ _ _ h2, getItem_setItem_other _ _ _ _ h1]

theorem c7_env_amended_witness :
    getItem (makeRunEnv (some [("PATH", "p")]) []) "PATH" =
      getItem (runEnvBase (some [("PATH", "p")]) []) "PATH" :=
  (c7_env_amended (some [("PATH", "p")]) []).2.2 "PATH" (by decide) (by decide)

/-! ## Claims C8 and C9: cancel() -/

/-- C8 counterexample: the claim that a forceful kill is attempted as a
fallback when the process object does not exist yet is false.  When
`self.process` is unassigned (and `is_running` false), the guard
`if self.process and self.is_running` skips the whole block: `cancel`
only sets the flag and attempts neither `terminate()` nor `kill()`. -/
theorem c8_counterexample :
    (cancel { hasProcess := false, is_running := false, cancel_requested := false,
              spawnCount := 0 }
       { terminateFails := true, killFails := true }).2.1 = [] ∧
    CancelAction.killProc ∉
      (cancel { hasProcess := false, is_running := false, cancel_requested := false,
                spawnCount := 0 }
         { terminateFails := true, killFails := true }).2.1 := by
  constructor
  · rfl
  · intro h; cases h

/-- C8 (amended): `cancel()` always sets the cancellation flag, never
raises to its caller (it is a total function for every outcome of
`terminate()` and `kill()`), and never invokes the exit callback (or any
callback).  When the process object exists and the runner is running it
attempts graceful termination, attempting a forceful kill only as a
fallback when `terminate()` raises, and a failure of the kill itself is
swallowed; when the process object does not exist or the runner is not
running, no termination or kill is attempted. -/
theorem c8_cancel_amended (s : RunnerState) (w : CancelWorld) :
    (cancel s w).1 = { s with cancel_requested := true } ∧
    (cancel s w).2.2 = [] ∧
    (s.hasProcess = true → s.is_running = true →
      (cancel s w).2.1 =
        if w.terminateFails then [CancelAction.terminateProc, CancelAction.killProc]
        else [CancelAction.terminateProc]) ∧
    ((s.hasProcess = false ∨ s.is_running = false) → (cancel s w).2.1 = []) := by
  obtain ⟨hp, ir, cr, n⟩ := s
  obtain ⟨tf, kf⟩ := w
  cases hp <;> cases ir <;> cases tf <;> cases kf <;>
    simp [cancel]

theorem c8_cancel_amended_witness :
    (cancel { hasProcess := true, is_running := true, cancel_requested := false,
              spawnCount := 1 }
       { terminateFails := true, killFails := false }).2.1 =
      [CancelAction.terminateProc, CancelAction.killProc] :=
  (c8_cancel_amended _ _).2.2.1 rfl rfl

/-- C9: a `cancel()` issued while the Runner is idle — no process object
and `is_running` false — performs no termination or kill attempt and
changes nothing but the cancellation flag, and a subsequent `start()`
resets that flag to false as it launches the worker, so a cancellation
requested before `start()` has no effect on the run that follows. -/
theorem c9_cancel_idle (s : RunnerState) (w : CancelWorld)
    (hp : s.hasProcess = false) (hr : s.is_running = false) :
    cancel s w = ({ s with cancel_requested := true }, [], []) ∧
    start { s with cancel_requested := true } =
      { s with cancel_requested := false, spawnCount := s.spawnCount + 1 } := by
  constructor
  · simp [cancel, hp, hr]
  · simp [start, hr]

theorem c9_cancel_idle_witness :
    cancel CommandRunner.init { terminateFails := true, killFails := true } =
      ({ hasProcess := false, is_running := false, cancel_requested := true,
         spawnCount := 0 }, [], []) ∧
    start { hasProcess := false, is_running := false, cancel_requested := true,
            spawnCount := 0 } =
      { hasProcess := false, is_running := false, cancel_requested := false,
        spawnCount := 1 } :=
  c9_cancel_idle CommandRunner.init
    { terminateFails := true, killFails := true } rfl rfl

/-! ## Claim C10: config store -/

/-- C10: `load_config` always returns a dict containing every key of
`DEFAULTS`; when the config file is missing, unreadable/unparsable, or
its top-level JSON value is not an object, it returns exactly a copy of
`DEFAULTS`; when the top level is an object, it returns `DEFAULTS`
updated with the file's string-keyed entries (non-string keys dropped by
the `isinstance(k, str)` filter modelled by `strEntries`): a key present
among the file's string entries looks up to the file's value, any other
key looks up to its default.  And `save_config` swallows every write
failure, returning normally on every outcome. -/
theorem c10_load_save_config (cwd : String) :
    load_config cwd ReadOutcome.missing = DEFAULTS cwd ∧
    load_config cwd ReadOutcome.raised = DEFAULTS cwd ∧
    (∀ v : PyVal, isPyDict v = false →
      load_config cwd (ReadOutcome.parsed v) = DEFAULTS cwd) ∧
    (∀ (f : ReadOutcome) (k : String), (getItem (DEFAULTS cwd) k).isSome = true →
      (getItem (load_config cwd f) k).isSome = true) ∧
    (∀ (entries : List (PyVal × PyVal)) (k : String) (v : PyVal),
      ((strEntries entries).map Prod.fst).Nodup →
      getItem (strEntries entries) k = some v →
      getItem (load_config cwd (ReadOutcome.parsed (PyVal.pyDict entries))) k = some v) ∧
    (∀ (entries : List (PyVal × PyVal)) (k : String),
      getItem (strEntries entries) k = none →
      getItem (load_config cwd (ReadOutcome.parsed (PyVal.pyDict entries))) k =
        getItem (DEFAULTS cwd) k) ∧
    (∀ w : Except String Unit, save_config w = Except.ok ()) := by
  refine ⟨rfl, rfl, ?_, ?_, ?_, ?_, ?_⟩
  · intro v hv
    cases v <;> first | rfl | simp [isPyDict] at hv
  · intro f k h
    cases f with
    | missing => exact h
    | raised => exact h
    | parsed v =>
      cases v with
      | pyDict entries => exact getItem_dictUpdate_isSome (strEntries entries) _ k h
      | pyNone => exact h
      | pyBool b => exact h
      | pyInt n => exact h
      | pyStr s => exact h
      | pyList xs => exact h
  · intro entries k v hnd h
    exact getItem_dictUpdate_some (strEntries entries) (DEFAULTS cwd) k v hnd h
  · intro entries k h
    exact getItem_dictUpdate_none (strEntries entries) (DEFAULTS cwd) k h
  · intro w
    cases w with
    | ok u => rfl
    | error m => rfl

theorem c10_load_save_config_witness :
    getItem (load_config "/workspace"
        (ReadOutcome.parsed (PyVal.pyDict [(PyVal.pyStr "dark_mode", PyVal.pyBool true)])))
      "dark_mode" = some (PyVal.pyBool true) :=
  (c10_load_save_config "/workspace").2.2.2.2.1
    [(PyVal.pyStr "dark_mode", PyVal.pyBool true)] "dark_mode" (PyVal.pyBool true)
    (by decide) rfl
